/-
Verification of the arrow-focus behavior engine
(src/src/behaviors/arrowFocus.ts).

Shallow embedding conventions:
* An element (`Elem`) is identified with its document position: document
  order is a strict total order on distinct elements, so we use `Nat` with
  its order.  `e.compareDocumentPosition(x) & DOCUMENT_POSITION_PRECEDING > 0`
  (x precedes e) is embedded as `x < e`.
* DOM attributes are a `Dom` environment: a map from element and attribute
  name to an optional string value, written only through `Dom.setAttr` /
  `Dom.removeAttr` (mirroring `setAttribute` / `removeAttribute`).
* The mutable variables closed over by `arrowFocus` (`tabbableElements`,
  `currentFocusedIndex`, `activeDescendantSuspended`,
  `currentFocusedElement`, `elementIndexFocusedByClick`, `savedTabIndex`,
  `allSeenTabbableElements`) form `ZoneState`; each event handler becomes a
  pure step function from state (plus the event data) to state plus the
  observable effects it produces (focus requests, designations, callback
  invocations, preventDefault).
* JavaScript array indices are `Int` (they can go negative, e.g.
  `findIndex` returning -1 or `currentFocusedIndex -= 1`); `arr[i]` is
  `listGet`, which yields `none` out of bounds, like `undefined`.
* `isMacOS()` (src/utils/userAgent, external collaborator) is a boolean
  parameter `isMac`; `document.activeElement` is described by an optional
  `ActiveElementInfo` carrying exactly the fields `shouldIgnoreFocusHandling`
  inspects.
-/
import Mathlib

/-- Element handle: identified with its document position. -/
abbrev Elem := Nat

/-- `export type Direction = 'previous' | 'next'`. -/
inductive Direction where
  | previous
  | next
deriving DecidableEq, Repr

/-- The seventeen members of `FocusMovementKeys`. -/
inductive Key where
  | arrowLeft
  | arrowDown
  | arrowUp
  | arrowRight
  | h
  | j
  | k
  | l
  | a
  | s
  | w
  | d
  | tab
  | home
  | endKey
  | pageUp
  | pageDown
deriving DecidableEq, BEq, Repr

namespace KeyBits

def ArrowHorizontal : Nat := 0b000000001

def ArrowVertical : Nat := 0b000000010

def JK : Nat := 0b000000100

def HL : Nat := 0b000001000

def HomeAndEnd : Nat := 0b000010000

def PageUpDown : Nat := 0b100000000

def WS : Nat := 0b000100000

def AD : Nat := 0b001000000

def Tab : Nat := 0b010000000

def ArrowAll : Nat := ArrowHorizontal ||| ArrowVertical

def HJKL : Nat := JK ||| HL

def WASD : Nat := WS ||| AD

def All : Nat := ArrowAll ||| HJKL ||| HomeAndEnd ||| PageUpDown ||| WASD ||| Tab

end KeyBits

/-- The `KEY_TO_BIT` table. -/
def keyToBit : Key → Nat
  | .arrowLeft => 0b00000001
  | .arrowDown => 0b00000010
  | .arrowUp => 0b00000010
  | .arrowRight => 0b00000001
  | .h => 0b00001000
  | .j => 0b00000100
  | .k => 0b00000100
  | .l => 0b00001000
  | .a => 0b01000000
  | .s => 0b00100000
  | .w => 0b00100000
  | .d => 0b01000000
  | .tab => 0b10000000
  | .home => 0b00010000
  | .endKey => 0b00010000
  | .pageUp => 0b100000000
  | .pageDown => 0b100000000

/-- The `KEY_TO_DIRECTION` table. -/
def keyToDirection : Key → Direction
  | .arrowLeft => .previous
  | .arrowDown => .next
  | .arrowUp => .previous
  | .arrowRight => .next
  | .h => .previous
  | .j => .next
  | .k => .previous
  | .l => .next
  | .a => .previous
  | .s => .next
  | .w => .previous
  | .d => .next
  | .tab => .next
  | .home => .previous
  | .endKey => .next
  | .pageUp => .previous
  | .pageDown => .next

/-- `getDirection(keyboardEvent)`: table lookup, with Shift turning Tab
into a `previous` movement. -/
def getDirection (key : Key) (shiftKey : Bool) : Direction :=
  let direction := keyToDirection key
  if key == Key.tab && shiftKey then Direction.previous else direction

/-- `[...key].length === 1`: of the seventeen movement keys, exactly the
eight letter keys are single characters ("printable"). -/
def keyIsPrintable : Key → Bool
  | .h | .j | .k | .l | .a | .s | .w | .d => true
  | _ => false

/-- What `shouldIgnoreFocusHandling` inspects about `document.activeElement`:
its kind (`<input type="text">`, `<textarea>`, `<select>`) and, for text
fields, the selection endpoints and value length. -/
structure ActiveElementInfo where
  isTextInputText : Bool
  isTextArea : Bool
  isSelect : Bool
  selectionStart : Nat
  selectionEnd : Nat
  valueLength : Nat
deriving DecidableEq, Repr

/-- `shouldIgnoreFocusHandling(keyboardEvent, activeElement)`: the six
suppression rules.  `none` stands for `activeElement` being null or not one
of the inspected element kinds (every `instanceof` test false). -/
def shouldIgnoreFocusHandling (key : Key) (metaKey ctrlKey : Bool) (isMac : Bool)
    (active : Option ActiveElementInfo) : Bool :=
  match active with
  | none => false
  | some ae =>
    let isTextInput := ae.isTextInputText || ae.isTextArea
    let keyLength1 := keyIsPrintable key
    if isTextInput && (keyLength1 || key == Key.home || key == Key.endKey) then
      true
    else if ae.isSelect &&
        ((key == Key.arrowDown && !(if isMac then metaKey else ctrlKey)) || keyLength1) then
      true
    else if ae.isTextArea && (key == Key.pageUp || key == Key.pageDown) then
      true
    else if isTextInput then
      let cursorAtStart := ae.selectionStart == 0 && ae.selectionEnd == 0
      let cursorAtEnd :=
        ae.selectionStart == ae.valueLength && ae.selectionEnd == ae.valueLength
      if key == Key.arrowLeft && !cursorAtStart then true
      else if key == Key.arrowRight && !cursorAtEnd then true
      else if ae.isTextArea && key == Key.arrowUp && !cursorAtStart then true
      else if ae.isTextArea && key == Key.arrowDown && !cursorAtEnd then true
      else false
    else false

/-- The `toEnd` condition of the keydown handler: Home/End, PageUp/PageDown,
or any key other than Tab together with the platform jump modifier
(Meta on macOS, Ctrl elsewhere). -/
def toEndFlag (key : Key) (metaKey ctrlKey isMac : Bool) : Bool :=
  key == Key.home || key == Key.endKey ||
    (key != Key.tab && ((isMac && metaKey) || (!isMac && ctrlKey))) ||
    key == Key.pageUp || key == Key.pageDown

/-- The attribute environment plus the unique-id counter. -/
structure Dom where
  attr : Elem → String → Option String
  nextIdCounter : Nat

/-- `element.setAttribute(name, value)`. -/
def Dom.setAttr (d : Dom) (e : Elem) (n v : String) : Dom :=
  { d with attr := fun e' n' => if e' = e ∧ n' = n then some v else d.attr e' n' }

/-- `element.removeAttribute(name)`. -/
def Dom.removeAttr (d : Dom) (e : Elem) (n : String) : Dom :=
  { d with attr := fun e' n' => if e' = e ∧ n' = n then none else d.attr e' n' }

/-- A DOM with no attributes set. -/
def emptyDom : Dom := ⟨fun _ _ => none, 0⟩

/-- Modelled from the spec: the unique-identifier generator collaborator
(`src/utils/uniqueId` is not part of this repository snapshot); it is used
only to stamp a fresh id on a newly designated element lacking one. -/
def uniqueIdStr (n : Nat) : String := "uid-" ++ toString n

/-- The mutable variables closed over by one `arrowFocus` call.
`savedTabIndex` is the WeakMap from tracked element to its original
`tabindex` value (keys in insertion order); `allSeenTabbableElements` is the
WeakSet of every element ever tracked. -/
structure ZoneState where
  tabbableElements : List Elem
  currentFocusedIndex : Int
  activeDescendantSuspended : Bool
  currentFocusedElement : Option Elem
  elementIndexFocusedByClick : Option Int
  savedTabIndex : List (Elem × Option String)
  allSeenTabbableElements : List Elem
deriving DecidableEq, Repr

/-- The configuration resolved at the top of `arrowFocus`:
`circular`, `bindKeys`, and `activeDescendantOptions.controllingElement`
(`none` = roving-tabindex mode). -/
structure Config where
  circular : Bool
  bindKeys : Nat
  activeDescendantControl : Option Elem
deriving DecidableEq, Repr

/-- One invocation of `onActiveDescendantChanged`:
`(newActiveDescendant?, previousActiveDescendant?)`. -/
abbrev ADCall := Option Elem × Option Elem

/-- JavaScript `arr[i]` for an `Int` index: `undefined` when out of bounds. -/
def listGet (l : List Elem) (i : Int) : Option Elem :=
  if i < 0 then none else l.get? i.toNat

/-- JavaScript `arr.findIndex(e => e === x)`: -1 when absent. -/
def findIndexJS (l : List Elem) (x : Elem) : Int :=
  let i := l.findIdx (fun e => decide (e = x))
  if i < l.length then (i : Int) else -1

/-- `updateTabIndex(from?, to?)`: moves the roving tab stop; a no-op in
active-descendant mode. -/
def updateTabIndex (cfg : Config) (dom : Dom) (fr toEl : Option Elem) : Dom :=
  if cfg.activeDescendantControl.isSome then dom
  else
    let d1 := match fr with
      | some e => dom.setAttr e "tabindex" "-1"
      | none => dom
    match toEl with
    | some e => d1.setAttr e "tabindex" "0"
    | none => d1

/-- `setActiveDescendant(from, to)`: stamps an id on `to` if it lacks one,
makes `to` the current element, points the controlling element's
`aria-activedescendant` at it, and invokes the change callback `(to, from)`. -/
def setActiveDescendant (cfg : Config) (st : ZoneState) (dom : Dom)
    (fr : Option Elem) (toEl : Elem) : ZoneState × Dom × ADCall :=
  let dom1 :=
    if (dom.attr toEl "id").isNone then
      { dom.setAttr toEl "id" (uniqueIdStr dom.nextIdCounter) with
          nextIdCounter := dom.nextIdCounter + 1 }
    else dom
  let toId := (dom1.attr toEl "id").getD ""
  let dom2 := match cfg.activeDescendantControl with
    | some c => dom1.setAttr c "aria-activedescendant" toId
    | none => dom1
  ({ st with currentFocusedElement := some toEl }, dom2, (some toEl, fr))

/-- `suspendActiveDescendant()`: removes `aria-activedescendant` from the
controlling element, sets the suspended flag, invokes the change callback
`(undefined, currentFocusedElement)` and clears the current element. -/
def suspendActiveDescendant (cfg : Config) (st : ZoneState) (dom : Dom) :
    ZoneState × Dom × List ADCall :=
  let dom1 := match cfg.activeDescendantControl with
    | some c => dom.removeAttr c "aria-activedescendant"
    | none => dom
  ({ st with activeDescendantSuspended := true, currentFocusedElement := none },
   dom1, [(none, st.currentFocusedElement)])

/-- The splice of `beginFocusManagement`: the surviving batch
`f0 :: rest` is inserted, as one contiguous run, before the first tracked
element that `f0` precedes in document order (at the end if there is none;
`findIdx` returns the length exactly when JS `findIndex` returns -1). -/
def insertTabbable (l : List Elem) (f0 : Elem) (rest : List Elem) : List Elem :=
  let insertIndex := l.findIdx (fun e => decide (f0 < e))
  l.take insertIndex ++ (f0 :: rest) ++ l.drop insertIndex

/-- `beginFocusManagement(...elements)`: filter the batch, discard it if
nothing survives, splice the survivors in, and for each survivor record its
original `tabindex` (first time only), set `tabindex="-1"`, and add it to the
ever-seen set.  Note: the `tabindex` write is unconditional - it is not
guarded by `activeDescendantControl`. -/
def beginFocusManagement (fil : Elem → Bool) (st : ZoneState) (dom : Dom)
    (elements : List Elem) : ZoneState × Dom :=
  match elements.filter fil with
  | [] => (st, dom)
  | f0 :: rest =>
    let st1 := { st with tabbableElements := insertTabbable st.tabbableElements f0 rest }
    (f0 :: rest).foldl
      (fun acc e =>
        let saved :=
          if acc.1.savedTabIndex.any (fun p => p.1 == e) then acc.1.savedTabIndex
          else acc.1.savedTabIndex ++ [(e, acc.2.attr e "tabindex")]
        let dom' := acc.2.setAttr e "tabindex" "-1"
        let seen :=
          if e ∈ acc.1.allSeenTabbableElements then acc.1.allSeenTabbableElements
          else acc.1.allSeenTabbableElements ++ [e]
        ({ acc.1 with savedTabIndex := saved, allSeenTabbableElements := seen }, dom'))
      (st1, dom)

/-- `endFocusManagement(element)`: remove the element if present; if its
`tabindex` attribute is `"0"` and the collection stays nonempty, hand the
tab stop (roving mode only) and the current marker to the new first element;
finally drop its saved-tabindex entry. -/
def endFocusManagement (cfg : Config) (st : ZoneState) (dom : Dom)
    (element : Elem) : ZoneState × Dom :=
  let i := st.tabbableElements.findIdx (fun e => decide (e = element))
  let r :=
    if i < st.tabbableElements.length then
      let newList := st.tabbableElements.eraseIdx i
      let stR := { st with tabbableElements := newList }
      if dom.attr element "tabindex" = some "0" ∧ 0 < newList.length then
        match newList with
        | [] => (stR, dom)
        | first :: _ =>
          ({ stR with currentFocusedElement := some first, currentFocusedIndex := 0 },
           updateTabIndex cfg dom none (some first))
      else (stR, dom)
    else (st, dom)
  ({ r.1 with savedTabIndex := r.1.savedTabIndex.filter (fun p => decide (p.1 ≠ element)) },
   r.2)

/-- The initialization part of `arrowFocus`: take the container's focusable
elements under management, open the first one for tabbing, and set up the
mutable state (`currentFocusedIndex = 0`; suspended and no current element
in active-descendant mode, else the first tracked element). -/
def arrowFocusInit (cfg : Config) (fil : Elem → Bool) (dom : Dom)
    (focusables : List Elem) : ZoneState × Dom :=
  let st0 : ZoneState := ⟨[], 0, false, none, none, [], []⟩
  let r1 := beginFocusManagement fil st0 dom focusables
  let d2 := updateTabIndex cfg r1.2 none (r1.1.tabbableElements.get? 0)
  ({ r1.1 with
      currentFocusedIndex := 0,
      activeDescendantSuspended := cfg.activeDescendantControl.isSome,
      currentFocusedElement :=
        if cfg.activeDescendantControl.isSome then none
        else r1.1.tabbableElements.get? 0 },
   d2)

/-- The index arithmetic of the keydown handler, lines 543-574: move one
step or to the boundary, then fix an out-of-range result (wrap when
`circular` and the key is not Tab, else clamp).  The second component
records whether the underflow clamp was taken, which is where
`suspendActiveDescendant()` is called when a controlling element exists. -/
def computeNextIndex (i : Int) (dir : Direction) (toEnd : Bool) (circular : Bool)
    (isTab : Bool) (len : Nat) : Int × Bool :=
  let i1 : Int := match dir with
    | .previous => if toEnd then 0 else i - 1
    | .next => if toEnd then (len : Int) - 1 else i + 1
  let p : Int × Bool :=
    if i1 < 0 then
      if circular ∧ ¬isTab then ((len : Int) - 1, false) else (0, true)
    else (i1, false)
  let i3 : Int :=
    if (len : Int) ≤ p.1 then
      if circular ∧ ¬isTab then 0 else (len : Int) - 1
    else p.1
  (i3, p.2)

/-- Everything one keydown event produces: the new state and DOM, the
element `focus()` was requested on (roving branch), the element designated
via `setActiveDescendant` (active-descendant branch), the change-callback
invocations in order, and whether `preventDefault()` was called. -/
structure KeydownResult where
  state : ZoneState
  dom : Dom
  focusRequested : Option Elem
  designated : Option Elem
  adCallbackCalls : List ADCall
  preventDefaultCalled : Bool

/-- Lines 581-595: act on `nextElementToFocus` (designate in
active-descendant mode, request real focus otherwise) and call
`preventDefault()` unless this was a Tab press that moved nothing. -/
def finishKeydown (cfg : Config) (st : ZoneState) (dom : Dom) (key : Key)
    (nextEl : Option Elem) (calls : List ADCall) : KeydownResult :=
  match nextEl with
  | some el =>
    if cfg.activeDescendantControl.isSome then
      let r := setActiveDescendant cfg st dom st.currentFocusedElement el
      { state := r.1, dom := r.2.1, focusRequested := none, designated := some el,
        adCallbackCalls := calls ++ [r.2.2],
        preventDefaultCalled := !(key == Key.tab) || true }
    else
      { state := st, dom := dom, focusRequested := some el, designated := none,
        adCallbackCalls := calls, preventDefaultCalled := !(key == Key.tab) || true }
  | none =>
    { state := st, dom := dom, focusRequested := none, designated := none,
      adCallbackCalls := calls, preventDefaultCalled := !(key == Key.tab) || false }

/-- The keydown handler (lines 502-599).  `overrideResult` is the value
`options.getNextFocusable(direction, toEnd, from, event)` returns when that
resolver is configured, and `none` when it is absent or declines - the
handler treats both identically (`if (!nextElementToFocus)`). -/
def keydownStep (cfg : Config) (st : ZoneState) (dom : Dom) (key : Key)
    (shiftKey metaKey ctrlKey defaultPrevented : Bool) (isMac : Bool)
    (active : Option ActiveElementInfo) (overrideResult : Option Elem) :
    KeydownResult :=
  let noop : KeydownResult := ⟨st, dom, none, none, [], false⟩
  if defaultPrevented = false ∧ 0 < keyToBit key &&& cfg.bindKeys ∧
      shouldIgnoreFocusHandling key metaKey ctrlKey isMac active = false then
    let direction := getDirection key shiftKey
    let toEnd := toEndFlag key metaKey ctrlKey isMac
    if st.activeDescendantSuspended = true then
      let st1 := { st with activeDescendantSuspended := false }
      let nextEl := listGet st.tabbableElements st.currentFocusedIndex
      finishKeydown cfg st1 dom key nextEl []
    else
      match overrideResult with
      | some el => finishKeydown cfg st dom key (some el) []
      | none =>
        let lastFocusedIndex := st.currentFocusedIndex
        let len := st.tabbableElements.length
        let p := computeNextIndex lastFocusedIndex direction toEnd cfg.circular
          (key == Key.tab) len
        let s1 :=
          if p.2 = true ∧ cfg.activeDescendantControl.isSome = true then
            suspendActiveDescendant cfg st dom
          else (st, dom, [])
        let st2 := { s1.1 with currentFocusedIndex := p.1 }
        let nextEl :=
          if lastFocusedIndex = p.1 then none
          else listGet st2.tabbableElements p.1
        finishKeydown cfg st2 s1.2.1 key nextEl s1.2.2
  else noop

/-- The `focusInStrategy` option: `'first' | 'previous' | function`.  The
function case carries the strategy callback, returning the requested
element (or nothing) for a given previously focused element. -/
inductive FocusInStrategy where
  | previous
  | first
  | custom (f : Elem → Option Elem)

/-- Everything one focusin event produces: the new state and DOM, the
element `focus()` was requested on (a redirect), and whether the
"Element requested is not a known focusable element." diagnostic was
emitted via `console.warn`. -/
structure FocusinResult where
  state : ZoneState
  dom : Dom
  focusRequested : Option Elem
  warned : Bool

/-- The focusin handler (lines 441-498).  `target` is `event.target`;
`related` is `event.relatedTarget` when it is an Element (else `none`);
`relatedOutsideContainer` is `!container.contains(event.relatedTarget)`.
A branch that calls `.focus()` reports it in `focusRequested`; the nested
handler run it triggers synchronously is not folded in (the `custom` branch
returns before touching any further state, which is the point of its
early `return`). -/
def focusinStep (cfg : Config) (strategy : FocusInStrategy) (st : ZoneState)
    (dom : Dom) (target : Elem) (related : Option Elem)
    (relatedOutsideContainer : Bool) : FocusinResult :=
  match st.elementIndexFocusedByClick with
  | some clickIndex =>
    let r :=
      if 0 ≤ clickIndex then
        let clicked := listGet st.tabbableElements clickIndex
        let dom1 :=
          if clicked ≠ st.currentFocusedElement then
            updateTabIndex cfg dom st.currentFocusedElement clicked
          else dom
        ({ st with currentFocusedIndex := clickIndex }, dom1)
      else (st, dom)
    { state :=
        { r.1 with
            elementIndexFocusedByClick := none
            currentFocusedElement := some target },
      dom := r.2, focusRequested := none, warned := false }
  | none =>
    match strategy with
    | .previous =>
      { state := { st with currentFocusedElement := some target },
        dom := updateTabIndex cfg dom st.currentFocusedElement (some target),
        focusRequested := none, warned := false }
    | .first =>
      if related.isSome ∧ relatedOutsideContainer ∧
          some target ≠ listGet st.tabbableElements 0 then
        { state :=
            { st with
                currentFocusedIndex := 0
                currentFocusedElement := some target },
          dom := dom, focusRequested := listGet st.tabbableElements 0,
          warned := false }
      else
        { state := { st with currentFocusedElement := some target },
          dom := updateTabIndex cfg dom st.currentFocusedElement (some target),
          focusRequested := none, warned := false }
    | .custom f =>
      match related, relatedOutsideContainer with
      | some rel, true =>
        let elementToFocus := f rel
        let requestedFocusElementIndex :=
          match elementToFocus with
          | some el => findIndexJS st.tabbableElements el
          | none => -1
        if 0 ≤ requestedFocusElementIndex then
          { state := { st with currentFocusedIndex := requestedFocusElementIndex },
            dom := dom, focusRequested := elementToFocus, warned := false }
        else
          { state := { st with currentFocusedElement := some target },
            dom := dom, focusRequested := none, warned := true }
      | _, _ =>
        { state := { st with currentFocusedElement := some target },
          dom := updateTabIndex cfg dom st.currentFocusedElement (some target),
          focusRequested := none, warned := false }

/-- One `addEventListener` call made by `arrowFocus`: the event name,
whether the target is the controlling element (vs the container), and
whether the registration passes the `{signal}` option. -/
structure ListenerReg where
  eventName : String
  onControllingElement : Bool
  usesSignal : Bool
deriving DecidableEq, Repr

/-- The event listeners `arrowFocus` registers, in order: `mousedown` and
`focusin` on the container with `{signal}`; `keydown` on the controlling
element when in active-descendant mode (else the container) with
`{signal}`; and, in active-descendant mode only, `focusout` on the
controlling element - registered WITHOUT the signal (line 602). -/
def arrowFocusListenerRegs (hasActiveDescendantControl : Bool) : List ListenerReg :=
  [⟨"mousedown", false, true⟩, ⟨"focusin", false, true⟩,
   ⟨"keydown", hasActiveDescendantControl, true⟩] ++
  (if hasActiveDescendantControl then [⟨"focusout", true, false⟩] else [])

/-- `arrowFocus` starts the MutationObserver with
`observer.observe(container, {subtree: true, childList: true})` and no code
path - abort handler or otherwise - ever calls `observer.disconnect()`. -/
def mutationObserverDisconnectedOnAbort : Bool := false

/-- `const signal = options?.abortSignal ?? controller.signal`: the
listeners are governed by the returned controller's signal only when no
external `abortSignal` option was supplied. -/
def returnedControllerSignalGoverns (hasAbortSignalOption : Bool) : Bool :=
  !hasAbortSignalOption

/-- One Element-Tracker operation: offer a batch (`beginFocusManagement`)
or retire an element (`endFocusManagement`). -/
inductive TrackOp where
  | offer (batch : List Elem)
  | retire (e : Elem)
deriving DecidableEq, Repr

/-- The collection-level effect of `beginFocusManagement`: filter, discard
an empty batch, splice the survivors at the single insertion point. -/
def beginList (fil : Elem → Bool) (l : List Elem) (batch : List Elem) : List Elem :=
  match batch.filter fil with
  | [] => l
  | f0 :: rest => insertTabbable l f0 rest

/-- The collection-level effect of `endFocusManagement`: remove the first
(only) occurrence found by `findIndex`, if any. -/
def eraseList (l : List Elem) (e : Elem) : List Elem :=
  let i := l.findIdx (fun x => decide (x = e))
  if i < l.length then l.eraseIdx i else l

/-- Apply one tracker operation to the collection. -/
def applyTrackOp (fil : Elem → Bool) (l : List Elem) : TrackOp → List Elem
  | .offer batch => beginList fil l batch
  | .retire e => eraseList l e

/-- Apply a sequence of tracker operations to the collection. -/
def applyTrackOps (fil : Elem → Bool) (l : List Elem) (ops : List TrackOp) : List Elem :=
  ops.foldl (applyTrackOp fil) l

/-- Boolean test for strict document order (ascending, no equals). -/
def strictSorted : List Elem → Bool
  | [] => true
  | [_] => true
  | x :: y :: t => decide (x < y) && strictSorted (y :: t)

/-- Boolean test that batch `b` sits inside a single gap of collection `l`:
every tracked element is either before all of `b` or after all of `b` in
document order (this also makes them disjoint). -/
def batchInGap (l b : List Elem) : Bool :=
  l.all (fun x => b.all (fun y => decide (x < y)) || b.all (fun y => decide (y < x)))

/-- Side conditions for one operation against the current collection:
an offered batch must be in strict relative document order and its
surviving (filtered) part must sit inside a single gap of the collection;
retirement is unconditional. -/
def trackOpOK (fil : Elem → Bool) (l : List Elem) : TrackOp → Bool
  | .offer batch => strictSorted batch && batchInGap l (batch.filter fil)
  | .retire _ => true

/-- Side conditions along a whole operation sequence. -/
def trackOpsOK (fil : Elem → Bool) (l : List Elem) : List TrackOp → Bool
  | [] => true
  | op :: rest => trackOpOK fil l op && trackOpsOK fil (applyTrackOp fil l op) rest

/-- The next-index rule exactly as the specification words it (navigation
state machine, spec section 4.3): previous/toEnd to 0, previous one step
back, next/toEnd to N-1, next one step forward; then an out-of-range result
wraps when wrapping is enabled and the key is not Tab, else clamps. -/
def specNextIndex (i : Int) (dir : Direction) (toEnd wrap isTab : Bool)
    (n : Nat) : Int :=
  let r : Int := match dir with
    | .previous => if toEnd then 0 else i - 1
    | .next => if toEnd then (n : Int) - 1 else i + 1
  if r < 0 then (if wrap ∧ ¬isTab then (n : Int) - 1 else 0)
  else if (n : Int) ≤ r then (if wrap ∧ ¬isTab then 0 else (n : Int) - 1)
  else r

/-! ### Helper lemmas -/

theorem Dom.attr_setAttr_self (d : Dom) (e : Elem) (n v : String) :
    (d.setAttr e n v).attr e n = some v := by
  simp [Dom.setAttr]

theorem Dom.attr_removeAttr_self (d : Dom) (e : Elem) (n : String) :
    (d.removeAttr e n).attr e n = none := by
  simp [Dom.removeAttr]

theorem listGet_nil (i : Int) : listGet [] i = none := by
  unfold listGet
  split <;> simp

theorem finishKeydown_state_currentFocusedIndex (cfg : Config) (st : ZoneState)
    (dom : Dom) (key : Key) (nextEl : Option Elem) (calls : List ADCall) :
    (finishKeydown cfg st dom key nextEl calls).state.currentFocusedIndex
      = st.currentFocusedIndex := by
  unfold finishKeydown
  cases nextEl with
  | none => rfl
  | some el =>
    by_cases hc : cfg.activeDescendantControl.isSome <;>
      simp [hc, setActiveDescendant]

theorem keydownStep_currentFocusedIndex (cfg : Config) (st : ZoneState) (dom : Dom)
    (key : Key) (shiftKey metaKey ctrlKey isMac : Bool)
    (active : Option ActiveElementInfo)
    (hbit : 0 < keyToBit key &&& cfg.bindKeys)
    (hign : shouldIgnoreFocusHandling key metaKey ctrlKey isMac active = false)
    (hsusp : st.activeDescendantSuspended = false) :
    (keydownStep cfg st dom key shiftKey metaKey ctrlKey false isMac active
        none).state.currentFocusedIndex
      = (computeNextIndex st.currentFocusedIndex (getDirection key shiftKey)
          (toEndFlag key metaKey ctrlKey isMac) cfg.circular (key == Key.tab)
          st.tabbableElements.length).1 := by
  unfold keydownStep
  rw [if_pos ⟨rfl, hbit, hign⟩, if_neg (by simp [hsusp])]
  simp [finishKeydown_state_currentFocusedIndex]

theorem computeNextIndex_fst_eq_specNextIndex (i : Int) (dir : Direction)
    (toEnd wrap isTab : Bool) (n : Nat) (hn : 1 ≤ n) (h0 : 0 ≤ i)
    (hi : i < (n : Int)) :
    (computeNextIndex i dir toEnd wrap isTab n).1
      = specNextIndex i dir toEnd wrap isTab n := by
  rcases dir <;> rcases toEnd <;>
    simp only [computeNextIndex, specNextIndex] <;>
    split_ifs <;> omega

theorem strictSorted_iff_chain (l : List Elem) :
    strictSorted l = true ↔ List.Chain' (· < ·) l := by
  match l with
  | [] => simp [strictSorted]
  | [_] => simp [strictSorted]
  | x :: y :: t =>
    rw [strictSorted, Bool.and_eq_true, decide_eq_true_iff,
      List.chain'_cons, strictSorted_iff_chain (y :: t)]

theorem strictSorted_iff_pairwise (l : List Elem) :
    strictSorted l = true ↔ l.Pairwise (· < ·) := by
  rw [strictSorted_iff_chain, List.chain'_iff_pairwise]

theorem mem_insertTabbable {l : List Elem} {f0 : Elem} {rest : List Elem}
    {x : Elem} :
    x ∈ insertTabbable l f0 rest ↔ x ∈ l ∨ x ∈ f0 :: rest := by
  unfold insertTabbable
  rw [List.append_assoc, List.mem_append, List.mem_append]
  constructor
  · rintro (h | h | h)
    · exact Or.inl (List.mem_of_mem_take h)
    · exact Or.inr h
    · exact Or.inl (List.mem_of_mem_drop h)
  · rintro (h | h)
    · rw [← List.take_append_drop (l.findIdx fun e => decide (f0 < e)) l] at h
      rcases List.mem_append.mp h with h | h
      · exact Or.inl h
      · exact Or.inr (Or.inr h)
    · exact Or.inr (Or.inl h)

theorem insertTabbable_cons_of_not_lt {a : Elem} {l : List Elem} {f0 : Elem}
    {rest : List Elem} (h : ¬ f0 < a) :
    insertTabbable (a :: l) f0 rest = a :: insertTabbable l f0 rest := by
  unfold insertTabbable
  rw [List.findIdx_cons]
  simp [h]

theorem insertTabbable_cons_of_lt {a : Elem} {l : List Elem} {f0 : Elem}
    {rest : List Elem} (h : f0 < a) :
    insertTabbable (a :: l) f0 rest = (f0 :: rest) ++ a :: l := by
  unfold insertTabbable
  rw [List.findIdx_cons]
  simp [h]

theorem insertTabbable_pairwise {l : List Elem} {f0 : Elem} {rest : List Elem}
    (hl : l.Pairwise (· < ·)) (hb : (f0 :: rest).Pairwise (· < ·))
    (hgap : ∀ x ∈ l, (∀ y ∈ f0 :: rest, x < y) ∨ (∀ y ∈ f0 :: rest, y < x)) :
    (insertTabbable l f0 rest).Pairwise (· < ·) := by
  induction l with
  | nil => simpa [insertTabbable] using hb
  | cons a t ih =>
    have hat := (List.pairwise_cons.mp hl).1
    have ht := (List.pairwise_cons.mp hl).2
    by_cases hfa : f0 < a
    · rw [insertTabbable_cons_of_lt hfa, List.pairwise_append]
      refine ⟨hb, hl, ?_⟩
      intro y hy x hx
      have hba : ∀ y ∈ f0 :: rest, y < a := by
        rcases hgap a (List.mem_cons_self a t) with h1 | h1
        · exact absurd (h1 f0 (List.mem_cons_self f0 rest)) (Nat.lt_asymm hfa)
        · exact h1
      rcases List.mem_cons.mp hx with rfl | hx
      · exact hba y hy
      · exact lt_trans (hba y hy) (hat x hx)
    · rw [insertTabbable_cons_of_not_lt hfa, List.pairwise_cons]
      refine ⟨?_, ih ht (fun x hx => hgap x (List.mem_cons_of_mem a hx))⟩
      intro y hy
      rcases mem_insertTabbable.mp hy with hyt | hyb
      · exact hat y hyt
      · rcases hgap a (List.mem_cons_self a t) with h1 | h1
        · exact h1 y hyb
        · exact absurd (h1 f0 (List.mem_cons_self f0 rest)) hfa

theorem batchInGap_iff {l b : List Elem} :
    batchInGap l b = true ↔
      ∀ x ∈ l, (∀ y ∈ b, x < y) ∨ (∀ y ∈ b, y < x) := by
  simp [batchInGap]

theorem beginList_pairwise {fil : Elem → Bool} {l : List Elem} {batch : List Elem}
    (hl : l.Pairwise (· < ·)) (hbatch : batch.Pairwise (· < ·))
    (hgap : ∀ x ∈ l, (∀ y ∈ batch.filter fil, x < y) ∨ (∀ y ∈ batch.filter fil, y < x)) :
    (beginList fil l batch).Pairwise (· < ·) := by
  unfold beginList
  split
  · exact hl
  · next f0 rest hf =>
    apply insertTabbable_pairwise hl
    · rw [← hf]
      exact hbatch.sublist (List.filter_sublist batch)
    · intro x hx
      have := hgap x hx
      rwa [hf] at this

theorem eraseList_pairwise {l : List Elem} {e : Elem}
    (hl : l.Pairwise (· < ·)) : (eraseList l e).Pairwise (· < ·) := by
  simp only [eraseList]
  split
  · exact hl.sublist (List.eraseIdx_sublist _ _)
  · exact hl

theorem applyTrackOps_pairwise (fil : Elem → Bool) :
    ∀ (ops : List TrackOp) (l : List Elem), l.Pairwise (· < ·) →
      trackOpsOK fil l ops = true → (applyTrackOps fil l ops).Pairwise (· < ·)
  | [], _, hl, _ => hl
  | op :: rest, l, hl, hok => by
    rw [trackOpsOK, Bool.and_eq_true] at hok
    have hstep : (applyTrackOp fil l op).Pairwise (· < ·) := by
      cases op with
      | offer batch =>
        have h1 := hok.1
        rw [trackOpOK, Bool.and_eq_true] at h1
        exact beginList_pairwise hl ((strictSorted_iff_pairwise batch).mp h1.1)
          (batchInGap_iff.mp h1.2)
      | retire e => exact eraseList_pairwise hl
    have : applyTrackOps fil l (op :: rest)
        = applyTrackOps fil (applyTrackOp fil l op) rest := rfl
    rw [this]
    exact applyTrackOps_pairwise fil rest _ hstep hok.2

/-! ### Concrete fixtures -/

/-- Example active-descendant configuration: wrapping disabled, default key
bindings (`ArrowVertical | HomeAndEnd`), controlling element 100. -/
def adConfigEx : Config :=
  ⟨false, KeyBits.ArrowVertical ||| KeyBits.HomeAndEnd, some 100⟩

/-- Example roving-tabindex configuration: wrapping disabled, default key
bindings. -/
def rovingConfigEx : Config :=
  ⟨false, KeyBits.ArrowVertical ||| KeyBits.HomeAndEnd, none⟩

/-! ### C1 -/

/-- C1: REFUTED - the code contradicts the claim (and its own
`activeDescendantOptions` doc comment, which promises not to "move focus or
alter `tabindex` on any element").  `beginFocusManagement` sets
`tabindex="-1"` on every element it takes under management with no
active-descendant guard (only `updateTabIndex` is guarded), so initializing
`arrowFocus` in active-descendant mode over one focusable element that had
no `tabindex` writes `tabindex="-1"` onto it. -/
theorem c1_offer_sets_tabindex_in_active_descendant_mode :
    adConfigEx.activeDescendantControl.isSome = true ∧
    emptyDom.attr 3 "tabindex" = none ∧
    ((arrowFocusInit adConfigEx (fun _ => true) emptyDom [3]).2).attr 3 "tabindex"
      = some "-1" := by
  refine ⟨rfl, rfl, by decide⟩

/-! ### C4 -/

/-- C4: REFUTED - triggering the returned cancellation handle does not
detach every notification, nor does it stop structural observation: the
controlling element's `focusout` listener is registered without `{signal}`
(line 602), the MutationObserver is never disconnected anywhere, and when an
external `abortSignal` option is supplied the returned controller's signal
governs nothing at all. -/
theorem c4_teardown_not_atomic :
    (arrowFocusListenerRegs true).filter (fun r => r.usesSignal == false)
      = [⟨"focusout", true, false⟩] ∧
    mutationObserverDisconnectedOnAbort = false ∧
    returnedControllerSignalGoverns true = false := by
  decide

/-! ### C2 -/

/-- C2: CONFIRMED.  For every configuration, state with a nonempty
collection and in-range current index, and bound, unsuppressed keypress with
no override destination (and not in the suspended sub-state, where the
pending movement is discarded instead of computed), the index after the
keydown handler runs is exactly the claimed rule: previous/toEnd to 0,
previous to i-1, next/toEnd to N-1, next to i+1, then an out-of-range
result wraps when wrapping is enabled and the key is not Tab, else
clamps. -/
theorem c2_next_index_matches_spec_rule (cfg : Config) (st : ZoneState) (dom : Dom)
    (key : Key) (shiftKey metaKey ctrlKey isMac : Bool)
    (active : Option ActiveElementInfo) (n : Nat)
    (hn : 1 ≤ n) (hlen : st.tabbableElements.length = n)
    (h0 : 0 ≤ st.currentFocusedIndex) (hi : st.currentFocusedIndex < (n : Int))
    (hbit : 0 < keyToBit key &&& cfg.bindKeys)
    (hign : shouldIgnoreFocusHandling key metaKey ctrlKey isMac active = false)
    (hsusp : st.activeDescendantSuspended = false) :
    (keydownStep cfg st dom key shiftKey metaKey ctrlKey false isMac active
        none).state.currentFocusedIndex
      = specNextIndex st.currentFocusedIndex (getDirection key shiftKey)
          (toEndFlag key metaKey ctrlKey isMac) cfg.circular (key == Key.tab) n := by
  rw [keydownStep_currentFocusedIndex cfg st dom key shiftKey metaKey ctrlKey isMac
    active hbit hign hsusp, hlen]
  exact computeNextIndex_fst_eq_specNextIndex _ _ _ _ _ _ hn h0 hi

/-- State used by the C2 witness: three tracked elements, current index 1. -/
def c2StateEx : ZoneState :=
  ⟨[4, 7, 9], 1, false, some 7, none, [(4, none), (7, none), (9, none)], [4, 7, 9]⟩

/-- Witness for C2: an ArrowDown press from index 1 of three elements lands
on index 2, as the spec rule computes. -/
theorem c2_next_index_matches_spec_rule_witness :
    (keydownStep rovingConfigEx c2StateEx emptyDom Key.arrowDown false false false
        false false none none).state.currentFocusedIndex
      = specNextIndex c2StateEx.currentFocusedIndex
          (getDirection Key.arrowDown false) (toEndFlag Key.arrowDown false false false)
          rovingConfigEx.circular (Key.arrowDown == Key.tab) 3 ∧
    specNextIndex c2StateEx.currentFocusedIndex (getDirection Key.arrowDown false)
        (toEndFlag Key.arrowDown false false false) rovingConfigEx.circular
        (Key.arrowDown == Key.tab) 3 = 2 :=
  ⟨c2_next_index_matches_spec_rule rovingConfigEx c2StateEx emptyDom Key.arrowDown
      false false false false none 3 (by decide) (by decide) (by decide) (by decide)
      (by decide) (by decide) (by decide),
   by decide⟩

/-! ### C7 -/

/-- C7: REFUTED as universally stated.  Both offered batches are in strict
relative document order ([0,2] then [1,3]), yet because the whole batch is
spliced at the single insertion point determined by its first element, the
second batch straddles tracked element 2 and the collection ends up
unsorted: [0, 1, 3, 2].  (Re-offering an already tracked element likewise
duplicates it: offering [5] twice yields [5, 5].) -/
theorem c7_straddling_batch_breaks_order_counterexample :
    strictSorted [0, 2] = true ∧ strictSorted [1, 3] = true ∧
    applyTrackOps (fun _ => true) [] [TrackOp.offer [0, 2], TrackOp.offer [1, 3]]
      = [0, 1, 3, 2] ∧
    strictSorted (applyTrackOps (fun _ => true) []
      [TrackOp.offer [0, 2], TrackOp.offer [1, 3]]) = false ∧
    applyTrackOps (fun _ => true) [] [TrackOp.offer [5], TrackOp.offer [5]]
      = [5, 5] := by
  decide

/-- C7 amended (proved): the collection stays sorted in document order and
duplicate-free over any sequence of offer/retire operations, provided each
offered batch is in strict relative document order and its surviving
(filtered) part sits inside a single gap of the current collection - that
is, every already-tracked element is either before all surviving batch
elements or after all of them.  (The original claim, with no gap condition,
is refuted by `c7_straddling_batch_breaks_order_counterexample`.) -/
theorem c7_amended_tracker_sorted_nodup (fil : Elem → Bool) (l : List Elem)
    (ops : List TrackOp) (hl : strictSorted l = true)
    (hok : trackOpsOK fil l ops = true) :
    (applyTrackOps fil l ops).Pairwise (· < ·) ∧ (applyTrackOps fil l ops).Nodup := by
  have hp := applyTrackOps_pairwise fil ops l ((strictSorted_iff_pairwise l).mp hl) hok
  exact ⟨hp, hp.imp (fun h => Nat.ne_of_lt h)⟩

/-- Witness for the amended C7: a concrete offer/retire/offer sequence
satisfying the side conditions yields a sorted, duplicate-free collection. -/
theorem c7_amended_tracker_sorted_nodup_witness :
    trackOpsOK (fun _ => true) []
        [TrackOp.offer [1, 5], TrackOp.retire 1, TrackOp.offer [0]] = true ∧
    (applyTrackOps (fun _ => true) []
        [TrackOp.offer [1, 5], TrackOp.retire 1, TrackOp.offer [0]]).Pairwise (· < ·) ∧
    (applyTrackOps (fun _ => true) []
        [TrackOp.offer [1, 5], TrackOp.retire 1, TrackOp.offer [0]]).Nodup :=
  ⟨by decide,
   (c7_amended_tracker_sorted_nodup (fun _ => true) []
      [TrackOp.offer [1, 5], TrackOp.retire 1, TrackOp.offer [0]]
      (by decide) (by decide)).1,
   (c7_amended_tracker_sorted_nodup (fun _ => true) []
      [TrackOp.offer [1, 5], TrackOp.retire 1, TrackOp.offer [0]]
      (by decide) (by decide)).2⟩

/-! ### C6 -/

/-- C6: CONFIRMED.  In active-descendant mode, a bound, unsuppressed
keypress received while suspended - whatever its direction or toEnd flag -
clears the suspended flag, discards the pending movement (the index is
unchanged), and re-designates the element at the last known position,
invoking the change callback with it. -/
theorem c6_suspended_keypress_redesignates (cfg : Config) (st : ZoneState)
    (dom : Dom) (key : Key) (shiftKey metaKey ctrlKey isMac : Bool)
    (active : Option ActiveElementInfo) (c el : Elem)
    (hc : cfg.activeDescendantControl = some c)
    (hsusp : st.activeDescendantSuspended = true)
    (hel : listGet st.tabbableElements st.currentFocusedIndex = some el)
    (hbit : 0 < keyToBit key &&& cfg.bindKeys)
    (hign : shouldIgnoreFocusHandling key metaKey ctrlKey isMac active = false) :
    (keydownStep cfg st dom key shiftKey metaKey ctrlKey false isMac active
        none).state.activeDescendantSuspended = false ∧
    (keydownStep cfg st dom key shiftKey metaKey ctrlKey false isMac active
        none).designated = some el ∧
    (keydownStep cfg st dom key shiftKey metaKey ctrlKey false isMac active
        none).state.currentFocusedElement = some el ∧
    (keydownStep cfg st dom key shiftKey metaKey ctrlKey false isMac active
        none).state.currentFocusedIndex = st.currentFocusedIndex ∧
    (keydownStep cfg st dom key shiftKey metaKey ctrlKey false isMac active
        none).adCallbackCalls = [(some el, st.currentFocusedElement)] := by
  unfold keydownStep
  rw [if_pos ⟨rfl, hbit, hign⟩, if_pos hsusp, hel]
  simp [finishKeydown, setActiveDescendant, hc]

/-- State used by the C6 witness: active-descendant mode, suspended, with
two tracked elements and last known position 0. -/
def c6StateEx : ZoneState :=
  ⟨[4, 7], 0, true, none, none, [(4, none), (7, none)], [4, 7]⟩

/-- Witness for C6: an ArrowDown press while suspended re-designates
element 4 at position 0 instead of moving. -/
theorem c6_suspended_keypress_redesignates_witness :
    (keydownStep adConfigEx c6StateEx emptyDom Key.arrowDown false false false false
        false none none).state.activeDescendantSuspended = false ∧
    (keydownStep adConfigEx c6StateEx emptyDom Key.arrowDown false false false false
        false none none).designated = some 4 ∧
    (keydownStep adConfigEx c6StateEx emptyDom Key.arrowDown false false false false
        false none none).state.currentFocusedElement = some 4 ∧
    (keydownStep adConfigEx c6StateEx emptyDom Key.arrowDown false false false false
        false none none).state.currentFocusedIndex = c6StateEx.currentFocusedIndex ∧
    (keydownStep adConfigEx c6StateEx emptyDom Key.arrowDown false false false false
        false none none).adCallbackCalls = [(some 4, c6StateEx.currentFocusedElement)] :=
  c6_suspended_keypress_redesignates adConfigEx c6StateEx emptyDom Key.arrowDown
    false false false false none 100 4 rfl rfl (by decide) (by decide) rfl

/-! ### C10 -/

/-- State used by the C10 counterexample: the initial state over an empty
container in roving mode (index 0, empty collection). -/
def c10StateEx : ZoneState :=
  (arrowFocusInit rovingConfigEx (fun _ => true) emptyDom []).1

/-- C10: REFUTED as stated.  A bound ArrowDown on the empty collection is
not a complete no-op: the handler still runs the index arithmetic, and the
clamp `tabbableElements.length - 1` on an empty collection drives
`currentFocusedIndex` from 0 to -1, so the controller state changes. -/
theorem c10_empty_collection_mutates_index_counterexample :
    c10StateEx.tabbableElements = [] ∧
    c10StateEx.currentFocusedIndex = 0 ∧
    (keydownStep rovingConfigEx c10StateEx emptyDom Key.arrowDown false false false
        false false none none).state.currentFocusedIndex = -1 := by
  decide

/-- C10 amended (proved): a bound navigation keypress on an empty collection
never focuses or designates any element (every lookup is out of bounds), for
any configuration, modifiers and suppression outcome - though the current
index and, in active-descendant mode, the suspension flag and change
callback are not left untouched (see the counterexample). -/
theorem c10_amended_empty_collection_no_focus (cfg : Config) (st : ZoneState)
    (dom : Dom) (key : Key)
    (shiftKey metaKey ctrlKey defaultPrevented isMac : Bool)
    (active : Option ActiveElementInfo)
    (hempty : st.tabbableElements = []) :
    (keydownStep cfg st dom key shiftKey metaKey ctrlKey defaultPrevented isMac
        active none).focusRequested = none ∧
    (keydownStep cfg st dom key shiftKey metaKey ctrlKey defaultPrevented isMac
        active none).designated = none := by
  unfold keydownStep
  split
  · split
    · rw [hempty, listGet_nil]
      simp [finishKeydown]
    · simp only [suspendActiveDescendant, hempty]
      repeat' split
      all_goals try exact ⟨rfl, rfl⟩
      all_goals simp_all only [listGet_nil, ite_self]
      all_goals exact ⟨rfl, rfl⟩
  · exact ⟨rfl, rfl⟩

/-- Witness for the amended C10: the concrete empty-collection state. -/
theorem c10_amended_empty_collection_no_focus_witness :
    (keydownStep rovingConfigEx c10StateEx emptyDom Key.arrowDown false false false
        false false none none).focusRequested = none ∧
    (keydownStep rovingConfigEx c10StateEx emptyDom Key.arrowDown false false false
        false false none none).designated = none :=
  c10_amended_empty_collection_no_focus rovingConfigEx c10StateEx emptyDom
    Key.arrowDown false false false false false none (by decide)

/-! ### C3 -/

/-- State used by the C3 counterexample: active-descendant mode, two
tracked elements, current designation on the last one (index 1). -/
def c3StateEx : ZoneState :=
  ⟨[4, 7], 1, false, some 7, none, [(4, none), (7, none)], [4, 7]⟩

/-- C3: REFUTED as stated.  With wrap disabled, a movement past the last
element does NOT enter the suspended state: from index 1 of two elements an
ArrowDown press merely clamps (the index stays 1), the suspended flag stays
false and the change callback is never invoked - only the before-the-first
direction suspends (`suspendActiveDescendant` is called in the `< 0` branch
of the keydown handler but not in the `>= length` branch). -/
theorem c3_past_last_does_not_suspend_counterexample :
    (keydownStep adConfigEx c3StateEx emptyDom Key.arrowDown false false false false
        false none none).state.activeDescendantSuspended = false ∧
    (keydownStep adConfigEx c3StateEx emptyDom Key.arrowDown false false false false
        false none none).adCallbackCalls = [] ∧
    (keydownStep adConfigEx c3StateEx emptyDom Key.arrowDown false false false false
        false none none).state.currentFocusedIndex = 1 := by
  decide

/-- C3 amended (proved): in active-descendant mode with wrap disabled, only
a movement that would land before the first element enters the suspended
state (designation cleared, callback `(undefined, previousCurrent)`); a
movement past the last element instead clamps to the last index, staying
active with no callback. -/
theorem c3_amended_only_before_first_suspends (cfg : Config) (st : ZoneState)
    (dom : Dom) (key : Key) (shiftKey metaKey ctrlKey isMac : Bool)
    (active : Option ActiveElementInfo) (c : Elem)
    (hc : cfg.activeDescendantControl = some c)
    (hwrap : cfg.circular = false)
    (hbit : 0 < keyToBit key &&& cfg.bindKeys)
    (hign : shouldIgnoreFocusHandling key metaKey ctrlKey isMac active = false)
    (hsusp : st.activeDescendantSuspended = false) :
    ((getDirection key shiftKey = Direction.previous ∧
        toEndFlag key metaKey ctrlKey isMac = false ∧
        st.currentFocusedIndex = 0 ∧ 1 ≤ st.tabbableElements.length) →
      (keydownStep cfg st dom key shiftKey metaKey ctrlKey false isMac active
          none).state.activeDescendantSuspended = true ∧
      (keydownStep cfg st dom key shiftKey metaKey ctrlKey false isMac active
          none).adCallbackCalls = [(none, st.currentFocusedElement)] ∧
      (keydownStep cfg st dom key shiftKey metaKey ctrlKey false isMac active
          none).state.currentFocusedElement = none ∧
      (keydownStep cfg st dom key shiftKey metaKey ctrlKey false isMac active
          none).dom.attr c "aria-activedescendant" = none ∧
      (keydownStep cfg st dom key shiftKey metaKey ctrlKey false isMac active
          none).state.currentFocusedIndex = 0) ∧
    ((getDirection key shiftKey = Direction.next ∧
        toEndFlag key metaKey ctrlKey isMac = false ∧
        st.currentFocusedIndex = (st.tabbableElements.length : Int) - 1 ∧
        1 ≤ st.tabbableElements.length) →
      (keydownStep cfg st dom key shiftKey metaKey ctrlKey false isMac active
          none).state.activeDescendantSuspended = false ∧
      (keydownStep cfg st dom key shiftKey metaKey ctrlKey false isMac active
          none).adCallbackCalls = [] ∧
      (keydownStep cfg st dom key shiftKey metaKey ctrlKey false isMac active
          none).state.currentFocusedIndex
        = (st.tabbableElements.length : Int) - 1) := by
  constructor
  · rintro ⟨hdir, hte, hidx, hlen⟩
    have h0 : ¬ ((st.tabbableElements.length : Int) ≤ 0) := by omega
    have hneg : ((0 : Int) - 1 < 0) := by norm_num
    have hp : computeNextIndex 0 (getDirection key shiftKey)
        (toEndFlag key metaKey ctrlKey isMac) cfg.circular (key == Key.tab)
        st.tabbableElements.length = (0, true) := by
      rw [hdir, hte, hwrap]
      simp [computeNextIndex, h0, hneg]
    unfold keydownStep
    rw [if_pos ⟨rfl, hbit, hign⟩, if_neg (by simp [hsusp])]
    simp only [hidx, hp]
    simp [suspendActiveDescendant, finishKeydown, hc, Dom.attr_removeAttr_self]
  · rintro ⟨hdir, hte, hidx, hlen⟩
    have h1 : ¬ ((st.tabbableElements.length : Int) - 1 + 1 < 0) := by omega
    have h2 : (st.tabbableElements.length : Int)
        ≤ (st.tabbableElements.length : Int) - 1 + 1 := by omega
    have hp : computeNextIndex ((st.tabbableElements.length : Int) - 1)
        (getDirection key shiftKey) (toEndFlag key metaKey ctrlKey isMac)
        cfg.circular (key == Key.tab) st.tabbableElements.length
          = ((st.tabbableElements.length : Int) - 1, false) := by
      rw [hdir, hte, hwrap]
      simp only [computeNextIndex]
      split_ifs <;> simp_all [Prod.mk.injEq]
    unfold keydownStep
    rw [if_pos ⟨rfl, hbit, hign⟩, if_neg (by simp [hsusp])]
    simp only [hidx, hp]
    simp [finishKeydown, hsusp]

/-- State used by the C3 witness: active-descendant mode, two tracked
elements, current designation on the first one (index 0). -/
def c3bStateEx : ZoneState :=
  ⟨[4, 7], 0, false, some 4, none, [(4, none), (7, none)], [4, 7]⟩

/-- Witness for the amended C3: an ArrowUp press from index 0 with wrap
disabled suspends, clears the designation and invokes the callback with
`(undefined, element 4)`. -/
theorem c3_amended_only_before_first_suspends_witness :
    (keydownStep adConfigEx c3bStateEx emptyDom Key.arrowUp false false false false
        false none none).state.activeDescendantSuspended = true ∧
    (keydownStep adConfigEx c3bStateEx emptyDom Key.arrowUp false false false false
        false none none).adCallbackCalls = [(none, c3bStateEx.currentFocusedElement)] ∧
    (keydownStep adConfigEx c3bStateEx emptyDom Key.arrowUp false false false false
        false none none).state.currentFocusedElement = none ∧
    (keydownStep adConfigEx c3bStateEx emptyDom Key.arrowUp false false false false
        false none none).dom.attr 100 "aria-activedescendant" = none ∧
    (keydownStep adConfigEx c3bStateEx emptyDom Key.arrowUp false false false false
        false none none).state.currentFocusedIndex = 0 :=
  (c3_amended_only_before_first_suspends adConfigEx c3bStateEx emptyDom Key.arrowUp
    false false false false none 100 rfl rfl (by decide) rfl rfl).1
    ⟨rfl, rfl, rfl, by decide⟩

/-! ### C8 -/

/-- State shared by the C8 counterexample and witness: two tracked elements
5 and 9, with 5 current at index 0. -/
def c8StateEx : ZoneState :=
  ⟨[5, 9], 0, false, some 5, none, [(5, none), (9, none)], [5, 9]⟩

/-- Attributes as the engine leaves them in active-descendant mode: every
tracked element was given `tabindex="-1"` at offer time. -/
def c8DomAD : Dom :=
  ⟨fun e n =>
    if e = 5 ∧ n = "tabindex" then some "-1"
    else if e = 9 ∧ n = "tabindex" then some "-1"
    else none, 0⟩

/-- Attributes in roving mode: element 5 carries the tab stop (`"0"`). -/
def c8DomRoving : Dom :=
  ⟨fun e n =>
    if e = 5 ∧ n = "tabindex" then some "0"
    else if e = 9 ∧ n = "tabindex" then some "-1"
    else none, 0⟩

/-- C8: REFUTED as stated.  The transfer condition is the `tabindex`
attribute being `"0"`, not holding the current marker: in active-descendant
mode (where the engine set `tabindex="-1"` on every tracked element at offer
time) retiring element 5 - which holds the current marker - removes it but
transfers nothing: `currentFocusedElement` still points at the removed
element 5, not at the new first element 9. -/
theorem c8_active_descendant_retire_no_transfer_counterexample :
    c8StateEx.currentFocusedElement = some 5 ∧
    (endFocusManagement adConfigEx c8StateEx c8DomAD 5).1.tabbableElements = [9] ∧
    (endFocusManagement adConfigEx c8StateEx c8DomAD 5).1.currentFocusedElement
      = some 5 ∧
    (endFocusManagement adConfigEx c8StateEx c8DomAD 5).1.currentFocusedElement
      ≠ some 9 := by
  decide

/-- C8 amended (proved): retiring a present element removes it, and when
the removed element carried the tab-stop attribute `tabindex="0"` and the
collection stays nonempty, the current marker and index transfer to the new
first element, which is additionally marked as the tab stop in roving mode
only (in active-descendant mode the DOM is untouched).  Because the engine
itself assigns `tabindex="0"` only in roving mode, the transfer never fires
in active-descendant mode (see the counterexample). -/
theorem c8_amended_retire_transfer (cfg : Config) (st : ZoneState) (dom : Dom)
    (e first : Elem) (restL : List Elem)
    (hmem : e ∈ st.tabbableElements)
    (hattr : dom.attr e "tabindex" = some "0")
    (herase : st.tabbableElements.eraseIdx
        (st.tabbableElements.findIdx fun x => decide (x = e)) = first :: restL) :
    (endFocusManagement cfg st dom e).1.tabbableElements = first :: restL ∧
    (endFocusManagement cfg st dom e).1.currentFocusedElement = some first ∧
    (endFocusManagement cfg st dom e).1.currentFocusedIndex = 0 ∧
    (cfg.activeDescendantControl = none →
      (endFocusManagement cfg st dom e).2.attr first "tabindex" = some "0") ∧
    (cfg.activeDescendantControl.isSome = true →
      (endFocusManagement cfg st dom e).2 = dom) := by
  have hfound : st.tabbableElements.findIdx (fun x => decide (x = e))
      < st.tabbableElements.length :=
    List.findIdx_lt_length_of_exists ⟨e, hmem, by simp⟩
  unfold endFocusManagement
  dsimp only
  rw [if_pos hfound, herase]
  rw [if_pos ⟨hattr, by simp⟩]
  refine ⟨rfl, rfl, rfl, ?_, ?_⟩
  · intro hnone
    simp [updateTabIndex, hnone, Dom.attr_setAttr_self]
  · intro hsome
    simp [updateTabIndex, hsome]

/-- Witness for the amended C8: in roving mode, retiring element 5 (which
carries `tabindex="0"`) hands the current marker, index 0 and the tab stop
to element 9. -/
theorem c8_amended_retire_transfer_witness :
    (endFocusManagement rovingConfigEx c8StateEx c8DomRoving 5).1.tabbableElements
      = [9] ∧
    (endFocusManagement rovingConfigEx c8StateEx c8DomRoving 5).1.currentFocusedElement
      = some 9 ∧
    (endFocusManagement rovingConfigEx c8StateEx c8DomRoving 5).1.currentFocusedIndex
      = 0 ∧
    (endFocusManagement rovingConfigEx c8StateEx c8DomRoving 5).2.attr 9 "tabindex"
      = some "0" :=
  ⟨(c8_amended_retire_transfer rovingConfigEx c8StateEx c8DomRoving 5 9 []
      (by decide) (by decide) (by decide)).1,
   (c8_amended_retire_transfer rovingConfigEx c8StateEx c8DomRoving 5 9 []
      (by decide) (by decide) (by decide)).2.1,
   (c8_amended_retire_transfer rovingConfigEx c8StateEx c8DomRoving 5 9 []
      (by decide) (by decide) (by decide)).2.2.1,
   (c8_amended_retire_transfer rovingConfigEx c8StateEx c8DomRoving 5 9 []
      (by decide) (by decide) (by decide)).2.2.2.1 rfl⟩

/-! ### C9 -/

theorem findIndexJS_nonneg_of_mem {l : List Elem} {x : Elem} (h : x ∈ l) :
    0 ≤ findIndexJS l x := by
  have hlt : l.findIdx (fun e => decide (e = x)) < l.length :=
    List.findIdx_lt_length_of_exists ⟨x, h, by simp⟩
  simp only [findIndexJS]
  rw [if_pos hlt]
  exact Int.natCast_nonneg _

theorem findIndexJS_neg_of_not_mem {l : List Elem} {x : Elem} (h : x ∉ l) :
    findIndexJS l x = -1 := by
  have hlen : l.findIdx (fun e => decide (e = x)) = l.length :=
    List.findIdx_eq_length_of_false (by
      intro y hy
      simp only [decide_eq_false_iff_not]
      rintro rfl
      exact h hy)
  simp only [findIndexJS, hlen]
  simp

/-- C9 amended (proved): with a custom focus-entry function, no pending
pointer selection, and focus arriving from outside the container, the
function is consulted on the previously focused element; a returned element
that is tracked gets a focus redirect (index updated, no state clobbering -
the handler returns early); any other outcome emits the diagnostic and
makes the newly focused element current WITHOUT moving the tab stop
(no attribute is written), unlike the true 'previous' policy.  No failure
is raised in either case (the step is total). -/
theorem c9_amended_custom_strategy (cfg : Config) (st : ZoneState) (dom : Dom)
    (f : Elem → Option Elem) (target rel : Elem)
    (hpending : st.elementIndexFocusedByClick = none) :
    (∀ el, f rel = some el → el ∈ st.tabbableElements →
      (focusinStep cfg (.custom f) st dom target (some rel) true).focusRequested
          = some el ∧
      (focusinStep cfg (.custom f) st dom target (some rel) true).state.currentFocusedIndex
          = findIndexJS st.tabbableElements el ∧
      (focusinStep cfg (.custom f) st dom target (some rel) true).state.currentFocusedElement
          = st.currentFocusedElement ∧
      (focusinStep cfg (.custom f) st dom target (some rel) true).warned = false) ∧
    ((∀ el, f rel = some el → el ∉ st.tabbableElements) →
      (focusinStep cfg (.custom f) st dom target (some rel) true).warned = true ∧
      (focusinStep cfg (.custom f) st dom target (some rel) true).state.currentFocusedElement
          = some target ∧
      (focusinStep cfg (.custom f) st dom target (some rel) true).focusRequested = none ∧
      (focusinStep cfg (.custom f) st dom target (some rel) true).dom = dom) := by
  constructor
  · intro el hfel hmem
    unfold focusinStep
    rw [hpending]
    dsimp only
    rw [hfel]
    rw [if_pos (findIndexJS_nonneg_of_mem hmem)]
    exact ⟨rfl, rfl, rfl, rfl⟩
  · intro hmiss
    unfold focusinStep
    rw [hpending]
    dsimp only
    match hfr : f rel with
    | none =>
      dsimp only
      rw [if_neg (by norm_num)]
      exact ⟨rfl, rfl, rfl, rfl⟩
    | some el =>
      dsimp only
      rw [if_neg (by
        rw [findIndexJS_neg_of_not_mem (hmiss el hfr)]
        norm_num)]
      exact ⟨rfl, rfl, rfl, rfl⟩

/-- State used by the C9 counterexample and witness: roving mode, tracked
elements 1 and 2, element 1 current with the tab stop. -/
def c9StateEx : ZoneState :=
  ⟨[1, 2], 0, false, some 1, none, [(1, none), (2, none)], [1, 2]⟩

/-- Attributes for the C9 scenario: element 1 carries `tabindex="0"`,
element 2 carries `tabindex="-1"`. -/
def c9DomEx : Dom :=
  ⟨fun e n =>
    if e = 1 ∧ n = "tabindex" then some "0"
    else if e = 2 ∧ n = "tabindex" then some "-1"
    else none, 0⟩

/-- C9: REFUTED as stated.  When the custom focus-entry function returns no
tracked element, the diagnostic is emitted and the newly focused element
becomes current - but it does NOT receive the tab stop: the fallback skips
`updateTabIndex`, so element 2's `tabindex` stays `"-1"` (the true
'previous' policy would have written `"0"`).  Focus entered element 2 from
outside (element 50). -/
theorem c9_fallback_does_not_move_tabstop_counterexample :
    (focusinStep rovingConfigEx (.custom (fun _ => none)) c9StateEx c9DomEx 2
        (some 50) true).warned = true ∧
    (focusinStep rovingConfigEx (.custom (fun _ => none)) c9StateEx c9DomEx 2
        (some 50) true).state.currentFocusedElement = some 2 ∧
    (focusinStep rovingConfigEx (.custom (fun _ => none)) c9StateEx c9DomEx 2
        (some 50) true).dom.attr 2 "tabindex" = some "-1" ∧
    (focusinStep rovingConfigEx (.custom (fun _ => none)) c9StateEx c9DomEx 2
        (some 50) true).dom.attr 2 "tabindex" ≠ some "0" := by
  decide

/-- Witness for the amended C9: the concrete no-destination scenario, via
the amended theorem. -/
theorem c9_amended_custom_strategy_witness :
    (focusinStep rovingConfigEx (.custom (fun _ => none)) c9StateEx c9DomEx 2
        (some 50) true).warned = true ∧
    (focusinStep rovingConfigEx (.custom (fun _ => none)) c9StateEx c9DomEx 2
        (some 50) true).state.currentFocusedElement = some 2 ∧
    (focusinStep rovingConfigEx (.custom (fun _ => none)) c9StateEx c9DomEx 2
        (some 50) true).focusRequested = none ∧
    (focusinStep rovingConfigEx (.custom (fun _ => none)) c9StateEx c9DomEx 2
        (some 50) true).dom = c9DomEx :=
  (c9_amended_custom_strategy rovingConfigEx c9StateEx c9DomEx (fun _ => none) 2 50
    rfl).2 (fun _ h => Option.noConfusion h)

/-! ### C5 -/

theorem getDirection_tab_false : getDirection Key.tab false = Direction.next := rfl

theorem toEndFlag_tab (m c mac : Bool) : toEndFlag Key.tab m c mac = false := rfl

theorem beq_tab_tab : (Key.tab == Key.tab) = true := rfl

/-- C5: CONFIRMED.  A Tab press never wraps even when wrapping is enabled
(from index N-1 with direction next and toEnd false - which is forced, Tab
never sets toEnd - the index stays N-1 and the event is left unconsumed);
more generally any Tab press whose computed index equals the prior index
leaves `preventDefault` uncalled, and an override-resolver destination
always consumes the event. -/
theorem c5_tab_never_wraps_and_unconsumed (cfg : Config) (st : ZoneState)
    (dom : Dom) (shiftKey metaKey ctrlKey isMac : Bool)
    (active : Option ActiveElementInfo) (ov : Option Elem)
    (hbit : 0 < keyToBit Key.tab &&& cfg.bindKeys)
    (hign : shouldIgnoreFocusHandling Key.tab metaKey ctrlKey isMac active = false)
    (hsusp : st.activeDescendantSuspended = false) :
    ((ov = none ∧ shiftKey = false ∧ 1 ≤ st.tabbableElements.length ∧
        st.currentFocusedIndex = (st.tabbableElements.length : Int) - 1) →
      (keydownStep cfg st dom Key.tab shiftKey metaKey ctrlKey false isMac active
          ov).state.currentFocusedIndex = (st.tabbableElements.length : Int) - 1 ∧
      (keydownStep cfg st dom Key.tab shiftKey metaKey ctrlKey false isMac active
          ov).preventDefaultCalled = false) ∧
    ((ov = none ∧ (computeNextIndex st.currentFocusedIndex
          (getDirection Key.tab shiftKey) false cfg.circular true
          st.tabbableElements.length).1 = st.currentFocusedIndex) →
      (keydownStep cfg st dom Key.tab shiftKey metaKey ctrlKey false isMac active
          ov).preventDefaultCalled = false) ∧
    (∀ e, ov = some e →
      (keydownStep cfg st dom Key.tab shiftKey metaKey ctrlKey false isMac active
          ov).preventDefaultCalled = true) := by
  refine ⟨?_, ?_, ?_⟩
  · rintro ⟨rfl, rfl, hlen, hidx⟩
    have h1 : ¬ ((st.tabbableElements.length : Int) - 1 + 1 < 0) := by omega
    have h2 : (st.tabbableElements.length : Int)
        ≤ (st.tabbableElements.length : Int) - 1 + 1 := by omega
    have hp : computeNextIndex ((st.tabbableElements.length : Int) - 1)
        Direction.next false cfg.circular true st.tabbableElements.length
          = ((st.tabbableElements.length : Int) - 1, false) := by
      simp only [computeNextIndex]
      split_ifs <;>
        first
          | rfl
          | exact absurd rfl (by assumption)
          | (exact (by assumption : False).elim)
          | (exact absurd (by assumption : false = true) (by simp))
          | (exact absurd (by assumption : cfg.circular = true ∧ ¬True) (by simp))
    unfold keydownStep
    rw [if_pos ⟨rfl, hbit, hign⟩, if_neg (by simp [hsusp])]
    simp only [hidx, getDirection_tab_false, toEndFlag_tab, beq_tab_tab, hp]
    simp [finishKeydown, hsusp, beq_tab_tab]
  · rintro ⟨rfl, heq⟩
    unfold keydownStep
    rw [if_pos ⟨rfl, hbit, hign⟩, if_neg (by simp [hsusp])]
    dsimp only
    simp only [toEndFlag_tab, beq_tab_tab]
    rw [if_pos heq.symm]
    rfl
  · rintro e rfl
    unfold keydownStep
    rw [if_pos ⟨rfl, hbit, hign⟩, if_neg (by simp [hsusp])]
    dsimp only
    simp only [finishKeydown]
    split <;> simp

/-- Configuration for the C5 witness: wrapping ENABLED and every key group
(including Tab) bound, roving mode. -/
def c5ConfigEx : Config := ⟨true, KeyBits.All, none⟩

/-- State for the C5 witness: one tracked element, current index 0 = N-1. -/
def c5StateEx : ZoneState := ⟨[4], 0, false, some 4, none, [(4, none)], [4]⟩

/-- Witness for C5: with wrap enabled, Tab from the last index stays put and
the event is left unconsumed. -/
theorem c5_tab_never_wraps_and_unconsumed_witness :
    (keydownStep c5ConfigEx c5StateEx emptyDom Key.tab false false false false false
        none none).state.currentFocusedIndex
      = (c5StateEx.tabbableElements.length : Int) - 1 ∧
    (keydownStep c5ConfigEx c5StateEx emptyDom Key.tab false false false false false
        none none).preventDefaultCalled = false :=
  (c5_tab_never_wraps_and_unconsumed c5ConfigEx c5StateEx emptyDom false false false
    false none none (by decide) (by decide) (by decide)).1
    ⟨rfl, rfl, by decide, by decide⟩
